import Mathlib

/-!
# Verification of the systemd-cd reconciliation engine

Shallow embedding of `domain/model/systemd/main.go` from tingtt/systemd-cd.

The core under verification is the reconciliation engine: `New`,
`Systemd.NewService`, `Systemd.DeleteService` and the four load/write
helpers, all translated from the Go source.  The external collaborators
(file accessor, unit codec, env codec, systemctl client) are not in the
source tree; they are modelled from the spec's collaborator contracts.

File contents are modelled at line granularity: a file is a `List Line`,
where `Line.tag` stands for the ownership-tag line
`#! Generated by systemd-cd`, `Line.kv k v` for a textual `k=v` line and
`Line.other s` for any other line.  The Go code classifies a file as
self-managed with `strings.Contains(content, "#! Generated by systemd-cd\n")`;
at line granularity this is membership of the tag line
(spec 4.5: "contains the Ownership Tag as a line").

Effects are made explicit: each operation returns its result together
with the updated file system and a trace of `Event`s (reads, writes,
daemon-reload, disable, remove), so that frame and ordering claims can
be stated over the trace.
-/

/-- One line of a file: the ownership-tag line, a `key=value` line, or any
other text line. -/
inductive Line where
  | tag : Line
  | kv : String → String → Line
  | other : String → Line
deriving DecidableEq, Repr

/-- A file's content, as its list of lines. -/
abbrev Content := List Line

/-- Embeds `strings.Contains(b.String(), "#! Generated by systemd-cd\n")`
from `loadUnitFileSerivce` / `loadEnvFile`: at line granularity, the file
contains the ownership tag iff one of its lines is the tag line. -/
def containsTag (c : Content) : Bool := c.contains Line.tag

/-- The `[Service]` section of a unit file, with the fields the engine
uses: `ExecStart` as the representative service field and the optional
`EnvironmentFile` reference (`uf.Service.EnvironmentFile` in the source). -/
structure UnitFileServiceS where
  ExecStart : String
  EnvironmentFile : Option String
deriving DecidableEq, Repr

/-- The structured unit-file model (`UnitFileService` in the source):
a `[Unit]` section field plus the `[Service]` section. -/
structure UnitFileService where
  Description : String
  Service : UnitFileServiceS
deriving DecidableEq, Repr

/-- Go zero value of the `[Service]` section: empty strings, nil pointer. -/
def UnitFileServiceS.zero : UnitFileServiceS := ⟨"", none⟩

/-- Go zero value `UnitFileService{}`. -/
def UnitFileService.zero : UnitFileService := ⟨"", UnitFileServiceS.zero⟩

/-- Modelled from the spec: the unit model's structural equality capability
(`loaded.Equals(uf)` in the source; the `Equals` method is outside the
source tree, spec 3: "compared by deep structural equality"). -/
def UnitFileService.Equals (a b : UnitFileService) : Bool := a == b

/-- Modelled from the spec: the Unit Codec's `encode` (`MarshalUnitFile`,
outside the source tree).  The spec treats the codec as an opaque
marshal/unmarshal capability; it is modelled as the evident rendering of
the model's fields to `key=value` lines. -/
def MarshalUnitFile (u : UnitFileService) : Content :=
  [Line.kv "Description" u.Description, Line.kv "ExecStart" u.Service.ExecStart] ++
    (match u.Service.EnvironmentFile with
     | some p => [Line.kv "EnvironmentFile" p]
     | none => [])

/-- First binding of `key` among the `key=value` lines of a content. -/
def findKV (key : String) : Content → Option String
  | [] => none
  | Line.kv k v :: rest => if k == key then some v else findKV key rest
  | _ :: rest => findKV key rest

/-- Modelled from the spec: the Unit Codec's `decode` (`UnmarshalUnitFile`,
outside the source tree), the partial inverse of `MarshalUnitFile`;
per the spec contract it may fail (`DecodeError`), here when a required
field is missing. -/
def UnmarshalUnitFile (c : Content) : Option UnitFileService :=
  match findKV "Description" c, findKV "ExecStart" c with
  | some d, some e => some ⟨d, ⟨e, findKV "EnvironmentFile" c⟩⟩
  | _, _ => none

/-- An environment map (`map[string]string` in Go), as an association
list; Go map equality is extensional, see `deepEqualEnv`. -/
abbrev EnvMap := List (String × String)

/-- Map access: first binding of `k`. -/
def lookupEnv (e : EnvMap) (k : String) : Option String :=
  match e with
  | [] => none
  | (k0, v0) :: rest => if k0 == k then some v0 else lookupEnv rest k

/-- Embeds `reflect.DeepEqual(env, loaded)` on `map[string]string` values:
Go's deep equality on maps is extensional (same key set, equal values,
order irrelevant), here as a decidable two-sided lookup check. -/
def deepEqualEnv (a b : EnvMap) : Bool :=
  (a.all fun p => lookupEnv b p.1 == lookupEnv a p.1) &&
    (b.all fun p => lookupEnv a p.1 == lookupEnv b p.1)

/-- Modelled from the spec: the Env Codec's `encode`
(`toml.Encode` with empty indent, outside the source tree): flat
`key=value` lines, unindented. -/
def EncodeEnv (e : EnvMap) : Content := e.map fun p => Line.kv p.1 p.2

/-- Modelled from the spec: the Env Codec's `decode` (`toml.Decode`,
outside the source tree): collects `key=value` lines, skips the tag line
(a `#!` comment), fails (`DecodeError`) on any other line. -/
def DecodeEnv : Content → Option EnvMap
  | [] => some []
  | Line.tag :: rest => DecodeEnv rest
  | Line.kv k v :: rest => (DecodeEnv rest).map fun e => (k, v) :: e
  | Line.other _ :: _ => none

/-- Errors of the engine: the error values declared in the source plus
the collaborators' error kinds from the spec taxonomy. -/
inductive GoError where
  /-- the "no such file or directory" condition recognised by `os.IsNotExist` -/
  | notExist : GoError
  /-- `ErrUnitFileNotManaged` -/
  | unitFileNotManaged : GoError
  /-- `ErrUnitEnvFileNotManaged` -/
  | unitEnvFileNotManaged : GoError
  /-- a `DecodeError` from `UnmarshalUnitFile` -/
  | decodeUnitErr : GoError
  /-- a `DecodeError` from `toml.Decode` -/
  | decodeEnvErr : GoError
  /-- a `ManagerError` from the systemctl client -/
  | managerErr : String → GoError
deriving DecidableEq, Repr

/-- Embeds `err != nil && os.IsNotExist(err)` on a Go error value
(`none` models a nil error). -/
def isNotExistErr : Option GoError → Bool
  | some GoError.notExist => true
  | _ => false

/-- Observable effects of one engine call, in order of occurrence. -/
inductive Event where
  /-- `ReadFile path` was attempted -/
  | readF : String → Event
  /-- `WriteFile path content` -/
  | writeF : String → Content → Event
  /-- `systemctl.DaemonReload()` -/
  | daemonReload : Event
  /-- `systemctl` disable of a unit, with the stop-now flag -/
  | disableU : String → Bool → Event
  /-- `os.Remove path` was attempted -/
  | removeF : String → Event
deriving DecidableEq, Repr

/-- The file system: paths bound to contents, later bindings shadowing
earlier ones. -/
abbrev FS := List (String × Content)

/-- Modelled from the spec: the File Accessor's `read` — the bound
content, or the not-found condition. -/
def readFS : FS → String → Option Content
  | [], _ => none
  | (q, c) :: rest, p => if q == p then some c else readFS rest p

/-- Modelled from the spec: the File Accessor's `write` — binds `p` to
`c` (always succeeds). -/
def writeFS (fs : FS) (p : String) (c : Content) : FS := (p, c) :: fs

/-- Modelled from the spec: the systemctl client (an external
collaborator): the outcome each of its operations would report, `none`
meaning success. -/
structure Systemctl where
  daemonReloadErr : Option GoError
  disableErr : Option GoError
deriving DecidableEq, Repr

/-- Go zero value of the client (a nil interface in Go). -/
def Systemctl.zero : Systemctl := ⟨none, none⟩

/-- The `Systemd` struct from the source: a systemctl client and the
unit-file directory. -/
structure Systemd where
  systemctl : Systemctl
  unitFileDir : String
deriving DecidableEq, Repr

/-- The `UnitService` handle from the source, with the fields of the
composite literal `UnitService{s.systemctl, name, uf, path, env}`. -/
structure UnitService where
  systemctl : Systemctl
  Name : String
  unitFile : UnitFileService
  Path : String
  Env : EnvMap
deriving DecidableEq, Repr

/-- Go zero value `UnitService{}`. -/
def UnitService.zero : UnitService :=
  ⟨Systemctl.zero, "", UnitFileService.zero, "", []⟩

/-- Embeds `strings.HasSuffix(unitFileDir, "/")`: for the one-character
suffix `"/"` this is "the last character is `'/'`". -/
def hasSuffixSlash (s : String) : Bool := s.data.getLast? == some '/'

/-- `New` from the source: ensures a trailing slash on `unitFileDir` and
builds the `Systemd` value.  `MkdirIfNotExist` is outside the source
tree; modelled from the spec as the File Accessor creating directories
as needed (always succeeds, touches no files). -/
def New (s : Systemctl) (unitFileDir : String) : Systemd :=
  if hasSuffixSlash unitFileDir then ⟨s, unitFileDir⟩
  else ⟨s, unitFileDir ++ "/"⟩

/-- `Systemd.loadUnitFileSerivce` from the source: read the file (fail
with the read error), record whether the content contains the ownership
tag, unmarshal (the unmarshal error, if any, is returned alongside). -/
def Systemd.loadUnitFileSerivce (_s : Systemd) (fs : FS) (path : String) :
    (UnitFileService × Bool × Option GoError) × List Event :=
  match readFS fs path with
  | none => ((UnitFileService.zero, false, some GoError.notExist), [Event.readF path])
  | some b =>
    let isGeneratedBySystemdCd := containsTag b
    match UnmarshalUnitFile b with
    | some u => ((u, isGeneratedBySystemdCd, none), [Event.readF path])
    | none =>
      ((UnitFileService.zero, isGeneratedBySystemdCd, some GoError.decodeUnitErr),
        [Event.readF path])

/-- `Systemd.writeUnitFileService` from the source: prepend the
ownership-tag line to the marshalled unit and write the file. -/
def Systemd.writeUnitFileService (_s : Systemd) (fs : FS) (u : UnitFileService)
    (path : String) : Option GoError × FS × List Event :=
  let b := Line.tag :: MarshalUnitFile u
  (none, writeFS fs path b, [Event.writeF path b])

/-- `Systemd.loadEnvFile` from the source: read the file (fail with the
read error), record whether the content contains the ownership tag,
decode (fail with the decode error). -/
def Systemd.loadEnvFile (_s : Systemd) (fs : FS) (path : String) :
    (EnvMap × Bool × Option GoError) × List Event :=
  match readFS fs path with
  | none => (([], false, some GoError.notExist), [Event.readF path])
  | some b =>
    let isGeneratedBySystemdCd := containsTag b
    match DecodeEnv b with
    | some e => ((e, isGeneratedBySystemdCd, none), [Event.readF path])
    | none => (([], isGeneratedBySystemdCd, some GoError.decodeEnvErr), [Event.readF path])

/-- `Systemd.writeEnvFile` from the source: prepend the ownership-tag
line to the encoded environment map and write the file. -/
def Systemd.writeEnvFile (_s : Systemd) (fs : FS) (e : EnvMap) (path : String) :
    Option GoError × FS × List Event :=
  let b := Line.tag :: EncodeEnv e
  (none, writeFS fs path b, [Event.writeF path b])

/-- The unit-file block of `NewService` (the spec's `reconcileUnitFile`,
4.1): load, three-way classify, then write / no-op / refuse.  The result
error is the `err` variable of the source as it stands after the block:
a fatal load error, `ErrUnitFileNotManaged`, or nil. -/
def Systemd.reconcileUnitFile (s : Systemd) (fs : FS) (uf : UnitFileService)
    (path : String) : Option GoError × FS × List Event :=
  -- loaded, isGeneratedBySystemdCd, err := s.loadUnitFileSerivce(path)
  let r1 := s.loadUnitFileSerivce fs path
  let loaded := r1.1.1
  let isGeneratedBySystemdCd := r1.1.2.1
  let err := r1.1.2.2
  let ev := r1.2
  if err.isSome && !isNotExistErr err then
    -- fail
    (err, fs, ev)
  else if isNotExistErr err then
    -- unit file not exists: generate `.service` file to `path`
    let w := s.writeUnitFileService fs uf path
    (w.1, w.2.1, ev ++ w.2.2)
  else if isGeneratedBySystemdCd then
    if !(loaded.Equals uf) then
      -- file has changes: update `.service` file to `path`
      let w := s.writeUnitFileService fs uf path
      (w.1, w.2.1, ev ++ w.2.2)
    else
      -- no changes: no-op
      (none, fs, ev)
  else
    -- unit file exists and not generated by systemd-cd
    (some GoError.unitFileNotManaged, fs, ev)

/-- The environment-file block of `NewService` (the spec's 4.2): same
three-way classification against the env path, with `reflect.DeepEqual`
as the dirty check and `ErrUnitEnvFileNotManaged` as the refusal. -/
def Systemd.reconcileEnvFile (s : Systemd) (fs : FS) (env : EnvMap)
    (envPath : String) : Option GoError × FS × List Event :=
  -- loaded, isGeneratedBySystemdCd, err := s.loadEnvFile(envPath)
  let r2 := s.loadEnvFile fs envPath
  let loaded := r2.1.1
  let isGeneratedBySystemdCd := r2.1.2.1
  let err := r2.1.2.2
  let ev := r2.2
  if err.isSome && !isNotExistErr err then
    -- fail
    (err, fs, ev)
  else if isNotExistErr err then
    -- env file not exists: generate env file to `envPath`
    let w := s.writeEnvFile fs env envPath
    (w.1, w.2.1, ev ++ w.2.2)
  else if isGeneratedBySystemdCd then
    if !(deepEqualEnv env loaded) then
      -- file has changes: update env file to `envPath`
      let w := s.writeEnvFile fs env envPath
      (w.1, w.2.1, ev ++ w.2.2)
    else
      -- no changes: no-op
      (none, fs, ev)
  else
    -- env file exists and not generated by systemd-cd
    (some GoError.unitEnvFileNotManaged, fs, ev)

/-- `Systemd.NewService` from the source, in explicit state-passing
style: result pair `(UnitService, error)`, the file system after the
call, and the event trace.  Any error from either block aborts with the
zero handle; otherwise `DaemonReload` is invoked and the handle
`UnitService{s.systemctl, name, uf, path, env}` is returned together
with the reload's error value. -/
def Systemd.NewService (s : Systemd) (name : String) (uf : UnitFileService)
    (env : EnvMap) (fs : FS) : (UnitService × Option GoError) × FS × List Event :=
  -- path := strings.Join([]string{s.unitFileDir, name, ".service"}, "")
  let path := s.unitFileDir ++ name ++ ".service"
  match s.reconcileUnitFile fs uf path with
  | (some e, fs1, ev1) =>
    -- fail
    ((UnitService.zero, some e), fs1, ev1)
  | (none, fs1, ev1) =>
    match uf.Service.EnvironmentFile with
    | none =>
      -- err = s.systemctl.DaemonReload()
      ((⟨s.systemctl, name, uf, path, env⟩, s.systemctl.daemonReloadErr), fs1,
        ev1 ++ [Event.daemonReload])
    | some envPath =>
      match s.reconcileEnvFile fs1 env envPath with
      | (some e, fs2, ev2) =>
        -- fail
        ((UnitService.zero, some e), fs2, ev1 ++ ev2)
      | (none, fs2, ev2) =>
        -- err = s.systemctl.DaemonReload()
        ((⟨s.systemctl, name, uf, path, env⟩, s.systemctl.daemonReloadErr), fs2,
          ev1 ++ ev2 ++ [Event.daemonReload])

/-- Modelled from the spec: `UnitService.Disable` (outside the source
tree) invokes the systemctl client's disable with the stop-now flag
(spec 4.4 / 6). -/
def UnitService.Disable (u : UnitService) (now : Bool) :
    Option GoError × List Event :=
  (u.systemctl.disableErr, [Event.disableU u.Name now])

/-- Modelled from the spec: `os.Remove(path)` deletes the binding; the
not-found condition is an error. -/
def osRemove (fs : FS) (p : String) : Option GoError × FS × List Event :=
  match readFS fs p with
  | none => (some GoError.notExist, fs, [Event.removeF p])
  | some _ => (none, fs.filter (fun q => !(q.1 == p)), [Event.removeF p])

/-- `Systemd.DeleteService` from the source: disable (stop now); on
error return it; otherwise remove the unit file at `u.Path`. -/
def Systemd.DeleteService (_s : Systemd) (fs : FS) (u : UnitService) :
    Option GoError × FS × List Event :=
  match u.Disable true with
  | (some e, ev) => (some e, fs, ev)
  | (none, ev) =>
    let r := osRemove fs u.Path
    (r.1, r.2.1, ev ++ r.2.2)

/-! ### Concrete sample fixtures (used by the witness theorems) -/

/-- A sample desired unit model referencing an environment file. -/
def sampleUf : UnitFileService := ⟨"demo", ⟨"/usr/bin/worker", some "/etc/worker.env"⟩⟩

/-- A sample desired unit model with no environment-file reference. -/
def sampleUfNoEnv : UnitFileService := ⟨"demo", ⟨"/usr/bin/worker", none⟩⟩

/-- A sample engine over `/run/units/` with an always-succeeding client. -/
def sampleSys : Systemd := ⟨⟨none, none⟩, "/run/units/"⟩

/-- A sample desired environment map. -/
def sampleEnv : EnvMap := [("PORT", "8080")]

/-- The file system state after a first successful `NewService` call for
`sampleUf` / `sampleEnv`: both files present and tagged. -/
def sampleFs1 : FS :=
  [("/etc/worker.env", Line.tag :: EncodeEnv sampleEnv),
   ("/run/units/worker.service", Line.tag :: MarshalUnitFile sampleUf)]

/-- A file system holding a decodable unit file lacking the ownership tag. -/
def foreignFs : FS :=
  [("/run/units/worker.service", [Line.kv "Description" "x", Line.kv "ExecStart" "y"])]

/-- A handle whose client reports a disable failure. -/
def sampleUsFail : UnitService :=
  ⟨⟨none, some (GoError.managerErr "disable failed")⟩, "worker", sampleUf,
    "/run/units/worker.service", sampleEnv⟩

/-! ## Helper lemmas -/

/-- Reading back through a write: the written path returns the new
content, any other path is unaffected. -/
theorem readFS_writeFS (fs : FS) (p q : String) (c : Content) :
    readFS (writeFS fs p c) q = if p == q then some c else readFS fs q := by
  simp [writeFS, readFS]

/-- Structural equality of the unit model is reflexive. -/
theorem Equals_refl (u : UnitFileService) : u.Equals u = true := by
  simp [UnitFileService.Equals]

/-- Unit-codec round trip: decoding the marshalled unit model yields the
model back. -/
theorem unmarshal_marshal (u : UnitFileService) :
    UnmarshalUnitFile (MarshalUnitFile u) = some u := by
  obtain ⟨d, ex, ef⟩ := u
  cases ef <;> simp [UnmarshalUnitFile, MarshalUnitFile, findKV]

/-- Unit-codec round trip through the ownership-tag line. -/
theorem unmarshal_tag_marshal (u : UnitFileService) :
    UnmarshalUnitFile (Line.tag :: MarshalUnitFile u) = some u := by
  obtain ⟨d, ex, ef⟩ := u
  cases ef <;> simp [UnmarshalUnitFile, MarshalUnitFile, findKV]

/-- Env-codec round trip. -/
theorem decode_encode_env (e : EnvMap) : DecodeEnv (EncodeEnv e) = some e := by
  induction e with
  | nil => rfl
  | cons p rest ih => simp [EncodeEnv, DecodeEnv] at ih ⊢; simp [ih]

/-- Env-codec round trip through the ownership-tag line. -/
theorem decode_tag_encode_env (e : EnvMap) :
    DecodeEnv (Line.tag :: EncodeEnv e) = some e := by
  simp [DecodeEnv, decode_encode_env]

/-- A successful lookup comes from an entry of the list. -/
theorem lookupEnv_mem {e : EnvMap} {k v : String} (h : lookupEnv e k = some v) :
    ∃ p ∈ e, p.1 = k := by
  induction e with
  | nil => simp [lookupEnv] at h
  | cons q rest ih =>
    by_cases hq : q.1 == k
    · exact ⟨q, List.mem_cons_self q rest, by simpa using hq⟩
    · simp only [lookupEnv, hq] at h
      obtain ⟨p, hp, hpk⟩ := ih h
      exact ⟨p, List.mem_cons_of_mem q hp, hpk⟩

/-- The dirty check `deepEqualEnv` decides extensional map equality:
equal key sets with equal values, independent of entry order. -/
theorem deepEqualEnv_iff (a b : EnvMap) :
    deepEqualEnv a b = true ↔ ∀ k, lookupEnv a k = lookupEnv b k := by
  constructor
  · intro h k
    simp only [deepEqualEnv, Bool.and_eq_true, List.all_eq_true, beq_iff_eq] at h
    obtain ⟨h1, h2⟩ := h
    cases ha : lookupEnv a k with
    | some v =>
      obtain ⟨p, hp, hpk⟩ := lookupEnv_mem ha
      have := h1 p hp
      rw [hpk] at this
      rw [ha] at this
      exact this.symm
    | none =>
      cases hb : lookupEnv b k with
      | none => rfl
      | some w =>
        obtain ⟨p, hp, hpk⟩ := lookupEnv_mem hb
        have := h2 p hp
        rw [hpk, ha, hb] at this
        exact this
  · intro h
    simp only [deepEqualEnv, Bool.and_eq_true, List.all_eq_true, beq_iff_eq]
    exact ⟨fun p _ => (h p.1).symm, fun p _ => h p.1⟩

/-! ## Branch equations for the two reconciliation phases -/

/-- Absent unit file: tagged write, no error. -/
theorem reconcileUnitFile_absent (s : Systemd) (fs : FS) (uf : UnitFileService)
    (path : String) (h : readFS fs path = none) :
    s.reconcileUnitFile fs uf path =
      (none, writeFS fs path (Line.tag :: MarshalUnitFile uf),
        [Event.readF path, Event.writeF path (Line.tag :: MarshalUnitFile uf)]) := by
  simp [Systemd.reconcileUnitFile, Systemd.loadUnitFileSerivce, h, isNotExistErr,
    Systemd.writeUnitFileService]

/-- Present, decodes, tagged, differs from desired: tagged write, no error. -/
theorem reconcileUnitFile_managed_ne (s : Systemd) (fs : FS) (uf : UnitFileService)
    (path : String) (b : Content) (m : UnitFileService)
    (hb : readFS fs path = some b) (hu : UnmarshalUnitFile b = some m)
    (hg : containsTag b = true) (hne : m.Equals uf = false) :
    s.reconcileUnitFile fs uf path =
      (none, writeFS fs path (Line.tag :: MarshalUnitFile uf),
        [Event.readF path, Event.writeF path (Line.tag :: MarshalUnitFile uf)]) := by
  simp [Systemd.reconcileUnitFile, Systemd.loadUnitFileSerivce, hb, hu, hg, hne,
    isNotExistErr, Systemd.writeUnitFileService]

/-- Present, decodes, tagged, equal to desired: no-op. -/
theorem reconcileUnitFile_managed_eq (s : Systemd) (fs : FS) (uf : UnitFileService)
    (path : String) (b : Content) (m : UnitFileService)
    (hb : readFS fs path = some b) (hu : UnmarshalUnitFile b = some m)
    (hg : containsTag b = true) (heq : m.Equals uf = true) :
    s.reconcileUnitFile fs uf path = (none, fs, [Event.readF path]) := by
  simp [Systemd.reconcileUnitFile, Systemd.loadUnitFileSerivce, hb, hu, hg, heq,
    isNotExistErr]

/-- Present, decodes, not tagged: refuse with `ErrUnitFileNotManaged`. -/
theorem reconcileUnitFile_foreign (s : Systemd) (fs : FS) (uf : UnitFileService)
    (path : String) (b : Content) (m : UnitFileService)
    (hb : readFS fs path = some b) (hu : UnmarshalUnitFile b = some m)
    (hg : containsTag b = false) :
    s.reconcileUnitFile fs uf path =
      (some GoError.unitFileNotManaged, fs, [Event.readF path]) := by
  simp [Systemd.reconcileUnitFile, Systemd.loadUnitFileSerivce, hb, hu, hg,
    isNotExistErr]

/-- Present but does not decode: fatal decode error, regardless of tag. -/
theorem reconcileUnitFile_undecodable (s : Systemd) (fs : FS) (uf : UnitFileService)
    (path : String) (b : Content)
    (hb : readFS fs path = some b) (hu : UnmarshalUnitFile b = none) :
    s.reconcileUnitFile fs uf path =
      (some GoError.decodeUnitErr, fs, [Event.readF path]) := by
  simp [Systemd.reconcileUnitFile, Systemd.loadUnitFileSerivce, hb, hu, isNotExistErr]

/-- Absent env file: tagged write, no error. -/
theorem reconcileEnvFile_absent (s : Systemd) (fs : FS) (env : EnvMap)
    (envPath : String) (h : readFS fs envPath = none) :
    s.reconcileEnvFile fs env envPath =
      (none, writeFS fs envPath (Line.tag :: EncodeEnv env),
        [Event.readF envPath, Event.writeF envPath (Line.tag :: EncodeEnv env)]) := by
  simp [Systemd.reconcileEnvFile, Systemd.loadEnvFile, h, isNotExistErr,
    Systemd.writeEnvFile]

/-- Present, decodes, tagged, differs from desired: tagged write. -/
theorem reconcileEnvFile_managed_ne (s : Systemd) (fs : FS) (env : EnvMap)
    (envPath : String) (b : Content) (l : EnvMap)
    (hb : readFS fs envPath = some b) (hd : DecodeEnv b = some l)
    (hg : containsTag b = true) (hne : deepEqualEnv env l = false) :
    s.reconcileEnvFile fs env envPath =
      (none, writeFS fs envPath (Line.tag :: EncodeEnv env),
        [Event.readF envPath, Event.writeF envPath (Line.tag :: EncodeEnv env)]) := by
  simp [Systemd.reconcileEnvFile, Systemd.loadEnvFile, hb, hd, hg, hne,
    isNotExistErr, Systemd.writeEnvFile]

/-- Present, decodes, tagged, equal to desired: no-op. -/
theorem reconcileEnvFile_managed_eq (s : Systemd) (fs : FS) (env : EnvMap)
    (envPath : String) (b : Content) (l : EnvMap)
    (hb : readFS fs envPath = some b) (hd : DecodeEnv b = some l)
    (hg : containsTag b = true) (heq : deepEqualEnv env l = true) :
    s.reconcileEnvFile fs env envPath = (none, fs, [Event.readF envPath]) := by
  simp [Systemd.reconcileEnvFile, Systemd.loadEnvFile, hb, hd, hg, heq, isNotExistErr]

/-- Present, decodes, not tagged: refuse with `ErrUnitEnvFileNotManaged`. -/
theorem reconcileEnvFile_foreign (s : Systemd) (fs : FS) (env : EnvMap)
    (envPath : String) (b : Content) (l : EnvMap)
    (hb : readFS fs envPath = some b) (hd : DecodeEnv b = some l)
    (hg : containsTag b = false) :
    s.reconcileEnvFile fs env envPath =
      (some GoError.unitEnvFileNotManaged, fs, [Event.readF envPath]) := by
  simp [Systemd.reconcileEnvFile, Systemd.loadEnvFile, hb, hd, hg, isNotExistErr]

/-- Present but does not decode: fatal decode error, regardless of tag. -/
theorem reconcileEnvFile_undecodable (s : Systemd) (fs : FS) (env : EnvMap)
    (envPath : String) (b : Content)
    (hb : readFS fs envPath = some b) (hd : DecodeEnv b = none) :
    s.reconcileEnvFile fs env envPath =
      (some GoError.decodeEnvErr, fs, [Event.readF envPath]) := by
  simp [Systemd.reconcileEnvFile, Systemd.loadEnvFile, hb, hd, isNotExistErr]

/-- Exhaustive outcomes of the unit-file phase: a tagged write into an
absent slot, a tagged write over a self-managed file, a no-op, or an
error leaving the file system untouched with nothing written. -/
theorem reconcileUnitFile_cases (s : Systemd) (fs : FS) (uf : UnitFileService)
    (path : String) :
    (readFS fs path = none ∧
      s.reconcileUnitFile fs uf path =
        (none, writeFS fs path (Line.tag :: MarshalUnitFile uf),
          [Event.readF path, Event.writeF path (Line.tag :: MarshalUnitFile uf)])) ∨
    ((∃ b, readFS fs path = some b ∧ containsTag b = true) ∧
      s.reconcileUnitFile fs uf path =
        (none, writeFS fs path (Line.tag :: MarshalUnitFile uf),
          [Event.readF path, Event.writeF path (Line.tag :: MarshalUnitFile uf)])) ∨
    (s.reconcileUnitFile fs uf path = (none, fs, [Event.readF path])) ∨
    (∃ e, s.reconcileUnitFile fs uf path = (some e, fs, [Event.readF path])) := by
  rcases hb : readFS fs path with _ | b
  · exact Or.inl ⟨rfl, reconcileUnitFile_absent s fs uf path hb⟩
  · rcases hu : UnmarshalUnitFile b with _ | m
    · exact Or.inr (Or.inr (Or.inr
        ⟨_, reconcileUnitFile_undecodable s fs uf path b hb hu⟩))
    · cases hg : containsTag b
      · exact Or.inr (Or.inr (Or.inr
          ⟨_, reconcileUnitFile_foreign s fs uf path b m hb hu hg⟩))
      · cases he : m.Equals uf
        · exact Or.inr (Or.inl ⟨⟨b, rfl, hg⟩,
            reconcileUnitFile_managed_ne s fs uf path b m hb hu hg he⟩)
        · exact Or.inr (Or.inr (Or.inl
            (reconcileUnitFile_managed_eq s fs uf path b m hb hu hg he)))

/-- Exhaustive outcomes of the environment-file phase, in the same four
shapes as `reconcileUnitFile_cases`. -/
theorem reconcileEnvFile_cases (s : Systemd) (fs : FS) (env : EnvMap)
    (envPath : String) :
    (readFS fs envPath = none ∧
      s.reconcileEnvFile fs env envPath =
        (none, writeFS fs envPath (Line.tag :: EncodeEnv env),
          [Event.readF envPath, Event.writeF envPath (Line.tag :: EncodeEnv env)])) ∨
    ((∃ b, readFS fs envPath = some b ∧ containsTag b = true) ∧
      s.reconcileEnvFile fs env envPath =
        (none, writeFS fs envPath (Line.tag :: EncodeEnv env),
          [Event.readF envPath, Event.writeF envPath (Line.tag :: EncodeEnv env)])) ∨
    (s.reconcileEnvFile fs env envPath = (none, fs, [Event.readF envPath])) ∨
    (∃ e, s.reconcileEnvFile fs env envPath = (some e, fs, [Event.readF envPath])) := by
  rcases hb : readFS fs envPath with _ | b
  · exact Or.inl ⟨rfl, reconcileEnvFile_absent s fs env envPath hb⟩
  · rcases hd : DecodeEnv b with _ | l
    · exact Or.inr (Or.inr (Or.inr
        ⟨_, reconcileEnvFile_undecodable s fs env envPath b hb hd⟩))
    · cases hg : containsTag b
      · exact Or.inr (Or.inr (Or.inr
          ⟨_, reconcileEnvFile_foreign s fs env envPath b l hb hd hg⟩))
      · cases he : deepEqualEnv env l
        · exact Or.inr (Or.inl ⟨⟨b, rfl, hg⟩,
            reconcileEnvFile_managed_ne s fs env envPath b l hb hd hg he⟩)
        · exact Or.inr (Or.inr (Or.inl
            (reconcileEnvFile_managed_eq s fs env envPath b l hb hd hg he)))

/-- Claim C1: in every `NewService` call a file is written only if it was
absent in the initial file system or its content contained the ownership
tag (was classified self-managed); a foreign file is never written. -/
theorem newService_overwrite_safety (s : Systemd) (name : String)
    (uf : UnitFileService) (env : EnvMap) (fs : FS) (p : String) (c : Content)
    (h : Event.writeF p c ∈ (s.NewService name uf env fs).2.2) :
    readFS fs p = none ∨ ∃ c0, readFS fs p = some c0 ∧ containsTag c0 = true := by
  simp only [Systemd.NewService] at h
  rcases reconcileUnitFile_cases s fs uf (s.unitFileDir ++ name ++ ".service") with
    ⟨habs, heq⟩ | ⟨⟨b, hb, hg⟩, heq⟩ | heq | ⟨e, heq⟩
  · -- unit file absent: tagged write
    rw [heq] at h
    rcases hef : uf.Service.EnvironmentFile with _ | envPath
    · simp [hef] at h
      obtain ⟨hp, hc⟩ := h
      subst hp
      exact Or.inl habs
    · simp only [hef] at h
      rcases reconcileEnvFile_cases s
          (writeFS fs (s.unitFileDir ++ name ++ ".service") (Line.tag :: MarshalUnitFile uf))
          env envPath with ⟨habs2, heq2⟩ | ⟨⟨b2, hb2, hg2⟩, heq2⟩ | heq2 | ⟨e2, heq2⟩
      · rw [heq2] at h
        simp at h
        rcases h with ⟨hp, hc⟩ | ⟨hp, hc⟩
        · subst hp; exact Or.inl habs
        · subst hp
          rw [readFS_writeFS] at habs2
          by_cases hpe : (s.unitFileDir ++ name ++ ".service") == p
          · simp [hpe] at habs2
          · simp [hpe] at habs2
            exact Or.inl habs2
      · rw [heq2] at h
        simp at h
        rcases h with ⟨hp, hc⟩ | ⟨hp, hc⟩
        · subst hp; exact Or.inl habs
        · subst hp
          rw [readFS_writeFS] at hb2
          by_cases hpe : (s.unitFileDir ++ name ++ ".service") == p
          · simp only [beq_iff_eq] at hpe
            rw [← hpe]
            exact Or.inl habs
          · simp [hpe] at hb2
            exact Or.inr ⟨b2, hb2, hg2⟩
      · rw [heq2] at h
        simp at h
        obtain ⟨hp, hc⟩ := h
        subst hp; exact Or.inl habs
      · rw [heq2] at h
        simp at h
        obtain ⟨hp, hc⟩ := h
        subst hp; exact Or.inl habs
  · -- unit file managed and different: tagged write
    rw [heq] at h
    rcases hef : uf.Service.EnvironmentFile with _ | envPath
    · simp [hef] at h
      obtain ⟨hp, hc⟩ := h
      subst hp
      exact Or.inr ⟨b, hb, hg⟩
    · simp only [hef] at h
      rcases reconcileEnvFile_cases s
          (writeFS fs (s.unitFileDir ++ name ++ ".service") (Line.tag :: MarshalUnitFile uf))
          env envPath with ⟨habs2, heq2⟩ | ⟨⟨b2, hb2, hg2⟩, heq2⟩ | heq2 | ⟨e2, heq2⟩
      · rw [heq2] at h
        simp at h
        rcases h with ⟨hp, hc⟩ | ⟨hp, hc⟩
        · subst hp; exact Or.inr ⟨b, hb, hg⟩
        · subst hp
          rw [readFS_writeFS] at habs2
          by_cases hpe : (s.unitFileDir ++ name ++ ".service") == p
          · simp [hpe] at habs2
          · simp [hpe] at habs2
            exact Or.inl habs2
      · rw [heq2] at h
        simp at h
        rcases h with ⟨hp, hc⟩ | ⟨hp, hc⟩
        · subst hp; exact Or.inr ⟨b, hb, hg⟩
        · subst hp
          rw [readFS_writeFS] at hb2
          by_cases hpe : (s.unitFileDir ++ name ++ ".service") == p
          · simp only [beq_iff_eq] at hpe
            rw [← hpe]
            exact Or.inr ⟨b, hb, hg⟩
          · simp [hpe] at hb2
            exact Or.inr ⟨b2, hb2, hg2⟩
      · rw [heq2] at h
        simp at h
        obtain ⟨hp, hc⟩ := h
        subst hp; exact Or.inr ⟨b, hb, hg⟩
      · rw [heq2] at h
        simp at h
        obtain ⟨hp, hc⟩ := h
        subst hp; exact Or.inr ⟨b, hb, hg⟩
  · -- unit file no-op
    rw [heq] at h
    rcases hef : uf.Service.EnvironmentFile with _ | envPath
    · simp [hef] at h
    · simp only [hef] at h
      rcases reconcileEnvFile_cases s fs env envPath with
        ⟨habs2, heq2⟩ | ⟨⟨b2, hb2, hg2⟩, heq2⟩ | heq2 | ⟨e2, heq2⟩
      · rw [heq2] at h
        simp at h
        obtain ⟨hp, hc⟩ := h
        subst hp; exact Or.inl habs2
      · rw [heq2] at h
        simp at h
        obtain ⟨hp, hc⟩ := h
        subst hp; exact Or.inr ⟨b2, hb2, hg2⟩
      · rw [heq2] at h
        simp at h
      · rw [heq2] at h
        simp at h
  · -- unit-phase error: nothing written
    rw [heq] at h
    simp at h

/-- Appending a slash yields a string ending in a slash. -/
theorem hasSuffixSlash_append (d : String) : hasSuffixSlash (d ++ "/") = true := by
  simp [hasSuffixSlash, String.data_append]

/-- The unit phase's trace always begins with the read of `path`. -/
theorem reconcileUnitFile_trace_head (s : Systemd) (fs : FS) (uf : UnitFileService)
    (path : String) :
    ∃ rest, (s.reconcileUnitFile fs uf path).2.2 = Event.readF path :: rest := by
  rcases reconcileUnitFile_cases s fs uf path with
    ⟨_, heq⟩ | ⟨_, heq⟩ | heq | ⟨e, heq⟩ <;> exact ⟨_, by rw [heq]⟩

/-- The first event of any `NewService` call is the read of the composed
unit-file path. -/
theorem newService_trace_head (s : Systemd) (name : String) (uf : UnitFileService)
    (env : EnvMap) (fs : FS) :
    ((s.NewService name uf env fs).2.2).head? =
      some (Event.readF (s.unitFileDir ++ name ++ ".service")) := by
  simp only [Systemd.NewService]
  obtain ⟨rest, htr⟩ :=
    reconcileUnitFile_trace_head s fs uf (s.unitFileDir ++ name ++ ".service")
  rcases hrc : s.reconcileUnitFile fs uf (s.unitFileDir ++ name ++ ".service") with
    ⟨e, fs1, ev1⟩
  rw [hrc] at htr
  simp only [] at htr
  rcases e with _ | e
  · rcases hef : uf.Service.EnvironmentFile with _ | envPath
    · simp [htr]
    · rcases hc : s.reconcileEnvFile fs1 env envPath with ⟨e2, fs2, ev2⟩
      rcases e2 with _ | e2 <;> simp [hc, htr]
  · simp [htr]

/-- Claim C10: the unit-file path `NewService` operates on is the plain
concatenation `unitFileDir ++ name ++ ".service"`; `New` guarantees the
directory ends in a slash (appending one if missing); the name is not
validated, so the empty name yields `unitFileDir ++ ".service"`. -/
theorem new_path_composition (sc : Systemctl) (dir name : String)
    (uf : UnitFileService) (env : EnvMap) (fs : FS) :
    hasSuffixSlash (New sc dir).unitFileDir = true ∧
      ((New sc dir).NewService name uf env fs).2.2.head? =
        some (Event.readF ((New sc dir).unitFileDir ++ name ++ ".service")) ∧
      ((New sc dir).NewService "" uf env fs).2.2.head? =
        some (Event.readF ((New sc dir).unitFileDir ++ ".service")) := by
  refine ⟨?_, newService_trace_head _ _ _ _ _, ?_⟩
  · unfold New
    by_cases hd : hasSuffixSlash dir
    · simp [hd]
    · simp [hd, hasSuffixSlash_append]
  · have h := newService_trace_head (New sc dir) "" uf env fs
    simpa [String.append_empty] using h

/-- Claim C6: when no file exists at the unit-file target path, the written
file is exactly the ownership-tag line followed by the marshalled
desired model, whose decoding yields the model back (round trip). -/
theorem newService_creation_from_absence (s : Systemd) (name : String)
    (uf : UnitFileService) (env : EnvMap) (fs : FS)
    (h : readFS fs (s.unitFileDir ++ name ++ ".service") = none) :
    Event.writeF (s.unitFileDir ++ name ++ ".service")
        (Line.tag :: MarshalUnitFile uf) ∈ (s.NewService name uf env fs).2.2 ∧
      (Line.tag :: MarshalUnitFile uf).head? = some Line.tag ∧
      UnmarshalUnitFile (MarshalUnitFile uf) = some uf := by
  refine ⟨?_, rfl, unmarshal_marshal uf⟩
  simp only [Systemd.NewService]
  rw [reconcileUnitFile_absent s fs uf _ h]
  rcases hef : uf.Service.EnvironmentFile with _ | envPath
  · simp
  · rcases hc : s.reconcileEnvFile
        (writeFS fs (s.unitFileDir ++ name ++ ".service") (Line.tag :: MarshalUnitFile uf))
        env envPath with ⟨e2, fs2, ev2⟩
    rcases e2 with _ | e2 <;> simp [hc]

/-- Claim C5: deletion invokes disable (stop-now) strictly before removing the
unit file; if disable fails the removal never happens, the file system
is untouched and the disable error is returned; on disable success the
trace is exactly disable followed by the removal of `u.Path`. -/
theorem deleteService_disable_before_remove (s : Systemd) (fs : FS) (u : UnitService) :
    ((s.DeleteService fs u).2.2).head? = some (Event.disableU u.Name true) ∧
      (∀ e, u.systemctl.disableErr = some e →
        s.DeleteService fs u = (some e, fs, [Event.disableU u.Name true])) ∧
      (u.systemctl.disableErr = none →
        (s.DeleteService fs u).2.2 =
          [Event.disableU u.Name true, Event.removeF u.Path]) := by
  unfold Systemd.DeleteService UnitService.Disable
  rcases hd : u.systemctl.disableErr with _ | e
  · rcases hr : readFS fs u.Path with _ | b <;> simp [osRemove, hr]
  · simp

/-- Claim C2 (amended): a pre-existing unit file lacking the ownership tag
makes `NewService` fail without any modification (result file system is
the input one, trace is the sole read): with `ErrUnitFileNotManaged`
when the content decodes, and with the decode error when it does not. -/
theorem newService_foreign_unit_refusal (s : Systemd) (name : String)
    (uf : UnitFileService) (env : EnvMap) (fs : FS) (b : Content)
    (hb : readFS fs (s.unitFileDir ++ name ++ ".service") = some b)
    (hg : containsTag b = false) :
    s.NewService name uf env fs =
      ((UnitService.zero,
          some (match UnmarshalUnitFile b with
                | some _ => GoError.unitFileNotManaged
                | none => GoError.decodeUnitErr)),
        fs, [Event.readF (s.unitFileDir ++ name ++ ".service")]) := by
  simp only [Systemd.NewService]
  rcases hu : UnmarshalUnitFile b with _ | m
  · rw [reconcileUnitFile_undecodable s fs uf _ b hb hu]
  · rw [reconcileUnitFile_foreign s fs uf _ b m hb hu hg]

/-- Claim C2 (counterexample): a pre-existing foreign unit file whose content
does not decode makes `NewService` fail with the decode error, not with
`ErrUnitFileNotManaged`. -/
theorem newService_foreign_undecodable_cex :
    ((Systemd.mk Systemctl.zero "/u/").NewService "a" UnitFileService.zero []
          [("/u/a.service", [Line.other "junk"])]).1.2 =
        some GoError.decodeUnitErr ∧
      GoError.decodeUnitErr ≠ GoError.unitFileNotManaged := by
  constructor
  · decide
  · decide

/-- Claim C4 (amended): when `NewService` returns a non-nil error, the handle
is the zero value — except when the error is the daemon-reload failure,
in which case the fully-constructed handle is returned alongside it. -/
theorem newService_error_zero_handle (s : Systemd) (name : String)
    (uf : UnitFileService) (env : EnvMap) (fs : FS) (e : GoError)
    (h : (s.NewService name uf env fs).1.2 = some e) :
    (s.NewService name uf env fs).1.1 = UnitService.zero ∨
      ((s.NewService name uf env fs).1.1 =
          ⟨s.systemctl, name, uf, s.unitFileDir ++ name ++ ".service", env⟩ ∧
        s.systemctl.daemonReloadErr = some e) := by
  simp only [Systemd.NewService] at h ⊢
  rcases hrc : s.reconcileUnitFile fs uf (s.unitFileDir ++ name ++ ".service") with
    ⟨e1, fs1, ev1⟩
  rcases e1 with _ | e1
  · rcases hef : uf.Service.EnvironmentFile with _ | envPath
    · simp only [hrc, hef] at h ⊢
      exact Or.inr ⟨trivial, h⟩
    · rcases hc : s.reconcileEnvFile fs1 env envPath with ⟨e2, fs2, ev2⟩
      rcases e2 with _ | e2
      · simp only [hrc, hef, hc] at h ⊢
        exact Or.inr ⟨trivial, h⟩
      · simp only [hrc, hef, hc] at h ⊢
        exact Or.inl trivial
  · simp only [hrc] at h ⊢
    exact Or.inl trivial

/-- Claim C4 (counterexample): a failing daemon-reload returns its error
together with a non-zero, fully constructed handle. -/
theorem newService_reload_error_handle_cex :
    ((Systemd.mk ⟨some (GoError.managerErr "reload failed"), none⟩ "/u/").NewService
          "a" UnitFileService.zero [] []).1.2 =
        some (GoError.managerErr "reload failed") ∧
      ((Systemd.mk ⟨some (GoError.managerErr "reload failed"), none⟩ "/u/").NewService
          "a" UnitFileService.zero [] []).1.1 ≠ UnitService.zero := by
  constructor
  · decide
  · decide

/-- Claim C3: when the state on disk already matches the desired unit model
and environment map, `NewService` performs zero file writes, leaves the
file system unchanged, and still invokes daemon-reload. -/
theorem newService_idempotent_second_call (s : Systemd) (name : String)
    (uf : UnitFileService) (env : EnvMap) (fs : FS) (b : Content)
    (m : UnitFileService)
    (hb : readFS fs (s.unitFileDir ++ name ++ ".service") = some b)
    (hu : UnmarshalUnitFile b = some m) (hg : containsTag b = true)
    (he : m.Equals uf = true)
    (henv : uf.Service.EnvironmentFile = none ∨
      ∃ envPath c2 l, uf.Service.EnvironmentFile = some envPath ∧
        readFS fs envPath = some c2 ∧ containsTag c2 = true ∧
        DecodeEnv c2 = some l ∧ deepEqualEnv env l = true) :
    (s.NewService name uf env fs).2.1 = fs ∧
      (∀ p c, Event.writeF p c ∉ (s.NewService name uf env fs).2.2) ∧
      Event.daemonReload ∈ (s.NewService name uf env fs).2.2 := by
  simp only [Systemd.NewService,
    reconcileUnitFile_managed_eq s fs uf (s.unitFileDir ++ name ++ ".service") b m hb hu hg he]
  rcases henv with hef | ⟨envPath, c2, l, hef, hc2, hg2, hd, hde⟩
  · simp [hef]
  · simp only [hef, reconcileEnvFile_managed_eq s fs env envPath c2 l hc2 hd hg2 hde]
    simp

/-- Claim C7: for a self-managed environment file, the file is left untouched
iff the desired map and the decoded map are extensionally equal (equal
key sets with equal values, order-independent). -/
theorem envfile_dirty_check_value_equality (s : Systemd) (name : String)
    (uf : UnitFileService) (env : EnvMap) (fs : FS) (envPath : String)
    (b : Content) (m : UnitFileService) (c2 : Content) (l : EnvMap)
    (hef : uf.Service.EnvironmentFile = some envPath)
    (hb : readFS fs (s.unitFileDir ++ name ++ ".service") = some b)
    (hu : UnmarshalUnitFile b = some m) (hg : containsTag b = true)
    (he : m.Equals uf = true)
    (hc2 : readFS fs envPath = some c2) (hg2 : containsTag c2 = true)
    (hd : DecodeEnv c2 = some l) :
    ((∀ c, Event.writeF envPath c ∉ (s.NewService name uf env fs).2.2) ↔
        deepEqualEnv env l = true) ∧
      (∀ a b2 : EnvMap, deepEqualEnv a b2 = true ↔
        ∀ k, lookupEnv a k = lookupEnv b2 k) := by
  refine ⟨?_, deepEqualEnv_iff⟩
  simp only [Systemd.NewService,
    reconcileUnitFile_managed_eq s fs uf (s.unitFileDir ++ name ++ ".service") b m hb hu hg he,
    hef]
  cases hde : deepEqualEnv env l
  · simp only [reconcileEnvFile_managed_ne s fs env envPath c2 l hc2 hd hg2 hde]
    constructor
    · intro hno
      exfalso
      exact hno (Line.tag :: EncodeEnv env) (by simp)
    · intro hcontra
      cases hcontra
  · simp only [reconcileEnvFile_managed_eq s fs env envPath c2 l hc2 hd hg2 hde]
    constructor
    · intro _
      trivial
    · intro _ c hmem
      simp at hmem

/-- The unit phase never invokes daemon-reload. -/
theorem reconcileUnitFile_no_reload (s : Systemd) (fs : FS) (uf : UnitFileService)
    (path : String) : Event.daemonReload ∉ (s.reconcileUnitFile fs uf path).2.2 := by
  rcases reconcileUnitFile_cases s fs uf path with
    ⟨_, heq⟩ | ⟨_, heq⟩ | heq | ⟨e, heq⟩ <;> rw [heq] <;> simp

/-- The environment phase never invokes daemon-reload. -/
theorem reconcileEnvFile_no_reload (s : Systemd) (fs : FS) (env : EnvMap)
    (envPath : String) : Event.daemonReload ∉ (s.reconcileEnvFile fs env envPath).2.2 := by
  rcases reconcileEnvFile_cases s fs env envPath with
    ⟨_, heq⟩ | ⟨_, heq⟩ | heq | ⟨e, heq⟩ <;> rw [heq] <;> simp

/-- Claim C8: daemon-reload is invoked exactly once on every call whose two
file steps succeed (even when both were no-ops) — with the reload's own
outcome as the returned error — and never when an earlier step failed,
in which case the error is returned with the zero handle. -/
theorem newService_reload_exactly_once (s : Systemd) (name : String)
    (uf : UnitFileService) (env : EnvMap) (fs : FS) :
    (∃ e, (s.NewService name uf env fs).1.2 = some e ∧
        (s.NewService name uf env fs).2.2.count Event.daemonReload = 0 ∧
        (s.NewService name uf env fs).1.1 = UnitService.zero) ∨
      ((s.NewService name uf env fs).2.2.count Event.daemonReload = 1 ∧
        (s.NewService name uf env fs).1.2 = s.systemctl.daemonReloadErr) := by
  simp only [Systemd.NewService]
  rcases hrc : s.reconcileUnitFile fs uf (s.unitFileDir ++ name ++ ".service") with
    ⟨e1, fs1, ev1⟩
  have h1 : Event.daemonReload ∉ ev1 := by
    have h := reconcileUnitFile_no_reload s fs uf (s.unitFileDir ++ name ++ ".service")
    rw [hrc] at h
    exact h
  try simp only [hrc]
  rcases e1 with _ | e1
  · rcases hef : uf.Service.EnvironmentFile with _ | envPath
    · simp only [hef]
      refine Or.inr ⟨?_, by trivial⟩
      simp [List.count_append, List.count_eq_zero.mpr h1]
    · simp only [hef]
      rcases hc : s.reconcileEnvFile fs1 env envPath with ⟨e2, fs2, ev2⟩
      have h2 : Event.daemonReload ∉ ev2 := by
        have h := reconcileEnvFile_no_reload s fs1 env envPath
        rw [hc] at h
        exact h
      try simp only [hc]
      rcases e2 with _ | e2
      · refine Or.inr ⟨?_, by trivial⟩
        simp [List.count_append, List.count_eq_zero.mpr h1, List.count_eq_zero.mpr h2]
      · refine Or.inl ⟨e2, by trivial, ?_, by trivial⟩
        simp [List.count_append, List.count_eq_zero.mpr h1, List.count_eq_zero.mpr h2]
  · exact Or.inl ⟨e1, by trivial, by simp [List.count_eq_zero.mpr h1], by trivial⟩

/-- Claim C9: when the desired unit model has no environment-file reference,
every read and write of the call touches only the composed unit-file
path, whatever the supplied environment map. -/
theorem newService_no_envfile_io (s : Systemd) (name : String)
    (uf : UnitFileService) (env : EnvMap) (fs : FS)
    (hef : uf.Service.EnvironmentFile = none) :
    ∀ p c, (Event.readF p ∈ (s.NewService name uf env fs).2.2 →
        p = s.unitFileDir ++ name ++ ".service") ∧
      (Event.writeF p c ∈ (s.NewService name uf env fs).2.2 →
        p = s.unitFileDir ++ name ++ ".service") := by
  intro p c
  simp only [Systemd.NewService]
  rcases reconcileUnitFile_cases s fs uf (s.unitFileDir ++ name ++ ".service") with
    ⟨_, heq⟩ | ⟨_, heq⟩ | heq | ⟨e, heq⟩ <;>
    rw [heq] <;> simp [hef] <;> tauto

/-! ## Witnesses -/

/-- Witness for `newService_overwrite_safety` at a concrete creation. -/
theorem newService_overwrite_safety_witness :
    readFS ([] : FS) "/run/units/worker.service" = none ∨
      ∃ c0, readFS ([] : FS) "/run/units/worker.service" = some c0 ∧
        containsTag c0 = true :=
  newService_overwrite_safety sampleSys "worker" sampleUf sampleEnv []
    "/run/units/worker.service" (Line.tag :: MarshalUnitFile sampleUf) (by decide)

/-- Witness for `newService_foreign_unit_refusal` at a concrete foreign file. -/
theorem newService_foreign_unit_refusal_witness :
    sampleSys.NewService "worker" sampleUf sampleEnv foreignFs =
      ((UnitService.zero,
          some (match UnmarshalUnitFile
              [Line.kv "Description" "x", Line.kv "ExecStart" "y"] with
            | some _ => GoError.unitFileNotManaged
            | none => GoError.decodeUnitErr)),
        foreignFs, [Event.readF (sampleSys.unitFileDir ++ "worker" ++ ".service")]) :=
  newService_foreign_unit_refusal sampleSys "worker" sampleUf sampleEnv foreignFs
    [Line.kv "Description" "x", Line.kv "ExecStart" "y"] (by decide) (by decide)

/-- Witness for `newService_idempotent_second_call` on the state left by
a first call. -/
theorem newService_idempotent_second_call_witness :
    (sampleSys.NewService "worker" sampleUf sampleEnv sampleFs1).2.1 = sampleFs1 ∧
      (∀ p c, Event.writeF p c ∉
        (sampleSys.NewService "worker" sampleUf sampleEnv sampleFs1).2.2) ∧
      Event.daemonReload ∈
        (sampleSys.NewService "worker" sampleUf sampleEnv sampleFs1).2.2 :=
  newService_idempotent_second_call sampleSys "worker" sampleUf sampleEnv sampleFs1
    (Line.tag :: MarshalUnitFile sampleUf) sampleUf (by decide) (by decide) (by decide)
    (by decide)
    (Or.inr ⟨"/etc/worker.env", Line.tag :: EncodeEnv sampleEnv, sampleEnv,
      by decide, by decide, by decide, by decide, by decide⟩)

/-- Witness for `newService_error_zero_handle` at a concrete refusal. -/
theorem newService_error_zero_handle_witness :
    (sampleSys.NewService "worker" sampleUf sampleEnv foreignFs).1.1 =
        UnitService.zero ∨
      ((sampleSys.NewService "worker" sampleUf sampleEnv foreignFs).1.1 =
          ⟨sampleSys.systemctl, "worker", sampleUf,
            sampleSys.unitFileDir ++ "worker" ++ ".service", sampleEnv⟩ ∧
        sampleSys.systemctl.daemonReloadErr = some GoError.unitFileNotManaged) :=
  newService_error_zero_handle sampleSys "worker" sampleUf sampleEnv foreignFs
    GoError.unitFileNotManaged (by decide)

/-- Witness for `deleteService_disable_before_remove`: a failing disable
aborts the deletion with the file system untouched. -/
theorem deleteService_disable_before_remove_witness :
    sampleSys.DeleteService sampleFs1 sampleUsFail =
      (some (GoError.managerErr "disable failed"), sampleFs1,
        [Event.disableU sampleUsFail.Name true]) :=
  (deleteService_disable_before_remove sampleSys sampleFs1 sampleUsFail).2.1
    (GoError.managerErr "disable failed") (by decide)

/-- Witness for `newService_creation_from_absence` on the empty file system. -/
theorem newService_creation_from_absence_witness :
    Event.writeF (sampleSys.unitFileDir ++ "worker" ++ ".service")
        (Line.tag :: MarshalUnitFile sampleUf) ∈
        (sampleSys.NewService "worker" sampleUf sampleEnv []).2.2 ∧
      (Line.tag :: MarshalUnitFile sampleUf).head? = some Line.tag ∧
      UnmarshalUnitFile (MarshalUnitFile sampleUf) = some sampleUf :=
  newService_creation_from_absence sampleSys "worker" sampleUf sampleEnv [] (by decide)

/-- Witness for `envfile_dirty_check_value_equality` on the state left by
a first call. -/
theorem envfile_dirty_check_value_equality_witness :
    ((∀ c, Event.writeF "/etc/worker.env" c ∉
        (sampleSys.NewService "worker" sampleUf sampleEnv sampleFs1).2.2) ↔
      deepEqualEnv sampleEnv sampleEnv = true) ∧
      (∀ a b2 : EnvMap, deepEqualEnv a b2 = true ↔
        ∀ k, lookupEnv a k = lookupEnv b2 k) :=
  envfile_dirty_check_value_equality sampleSys "worker" sampleUf sampleEnv sampleFs1
    "/etc/worker.env" (Line.tag :: MarshalUnitFile sampleUf) sampleUf
    (Line.tag :: EncodeEnv sampleEnv) sampleEnv (by decide) (by decide) (by decide)
    (by decide) (by decide) (by decide) (by decide) (by decide)

/-- Witness for `newService_no_envfile_io` with an env-free unit model:
the one write event of the concrete call targets the unit-file path. -/
theorem newService_no_envfile_io_witness :
    "/run/units/worker.service" = sampleSys.unitFileDir ++ "worker" ++ ".service" :=
  (newService_no_envfile_io sampleSys "worker" sampleUfNoEnv sampleEnv [] (by decide)
      "/run/units/worker.service" (Line.tag :: MarshalUnitFile sampleUfNoEnv)).2
    (by decide)
